import Mathlib

/-!
Verification development for the `ul` URL-shortening service.

The Go source (`main.go`) is shallowly embedded here:

* the code transform (`obfuscateID`, `deobfuscateID`, `encodeBase62`,
  `decodeBase62`, `generateShortCode`, `parseShortCode`) becomes pure
  Lean functions.  Go `int64` arithmetic is modelled on `Nat` viewing an
  integer as its unsigned 64-bit pattern: `& 0x7FFFFFFF` is `% 2^31`
  (it keeps the low 31 bits of the pattern), and products are reduced
  `% 2^64` where they feed into further arithmetic — since
  `2^31 ∣ 2^64`, the composed expressions below reduce to a single
  `% 2^31`, which agrees with the Go code on every 64-bit pattern;
* the SQLite-backed store becomes explicit state passing over a `Store`
  value (list of url rows, list of click rows, autoincrement counter);
* fallible Go functions returning `error` become `Except String`
  carrying the same message text the Go code produces.
-/

namespace UL

/-- Base62 character set for short codes, exactly as in the source. -/
def base62Chars : String := "0123456789ABCDEFGHIJKLMNOPQRSTUVWXYZabcdefghijklmnopqrstuvwxyz"

/-- Prime used by `obfuscateID` for mixing. -/
def mixPrime : Nat := 1580030173

/-- XOR mask used by `obfuscateID`. -/
def xorMask : Nat := 0x5d2a8f93

/-- The constant the source calls `mixPrimeInverse`
("Modular inverse of mixPrime mod 2^31"). -/
def mixPrimeInverse : Nat := 1061834701

/-- `obfuscateID` from the source: XOR with the mask, multiply by the
prime, keep the low 31 bits (`& 0x7FFFFFFF`). -/
def obfuscateID (id : Nat) : Nat :=
  ((id ^^^ xorMask) * mixPrime) % 2 ^ 31

/-- `deobfuscateID` from the source: multiply by the precomputed
`mixPrimeInverse`, keep the low 31 bits, XOR with the mask. -/
def deobfuscateID (obfuscated : Nat) : Nat :=
  (obfuscated * mixPrimeInverse) % 2 ^ 31 ^^^ xorMask

/-- The character of `base62Chars` at index `i` (the Go code indexes
the constant string; `i` is always `< 62` at every call site). -/
def base62Digit (i : Nat) : Char :=
  base62Chars.data.getD i '0'

/-- Digit-production loop of `encodeBase62`, fuel-indexed so that the
definition is structurally recursive; each step peels the least
significant base62 digit exactly as the Go loop does, and prepends it.
The loop runs at most 11 times for any 64-bit value (`62^11 > 2^64`),
so fuel `64` never runs out at any call site. -/
def encodeLoop : Nat → Nat → List Char
  | 0, _ => []
  | _ + 1, 0 => []
  | fuel + 1, num + 1 =>
    encodeLoop fuel ((num + 1) / 62) ++ [base62Digit ((num + 1) % 62)]

/-- `encodeBase62` from the source: `0` encodes as the first alphabet
character; otherwise repeated div/mod by 62, most significant digit
first. -/
def encodeBase62 (num : Nat) : String :=
  if num = 0 then String.mk [base62Digit 0]
  else String.mk (encodeLoop 64 num)

/-- Index of a character in a character list (the inner linear scan of
`decodeBase62` over `base62Chars`); `none` plays the role of the Go
sentinel `-1`. -/
def indexIn (c : Char) : List Char → Option Nat
  | [] => none
  | x :: xs => if x == c then some 0 else (indexIn c xs).map (· + 1)

/-- Error message produced by `decodeBase62` on a character outside the
alphabet (Go: `fmt.Errorf("invalid character in short code: %c", char)`). -/
def invalidCharMsg (c : Char) : String :=
  "invalid character in short code: " ++ String.mk [c]

/-- Accumulating loop of `decodeBase62`: `num = num*base + value`,
with Go `int64` overflow modelled as wrap-around modulo `2^64`. -/
def decodeLoop (num : Nat) : List Char → Except String Nat
  | [] => Except.ok num
  | c :: rest =>
    match indexIn c base62Chars.data with
    | none => Except.error (invalidCharMsg c)
    | some value => decodeLoop ((num * 62 + value) % 2 ^ 64) rest

/-- `decodeBase62` from the source: fold the characters left to right,
failing on the first character outside the alphabet. -/
def decodeBase62 (encoded : String) : Except String Nat :=
  decodeLoop 0 encoded.data

/-- `generateShortCode` from the source: obfuscate then base62-encode. -/
def generateShortCode (id : Nat) : String :=
  encodeBase62 (obfuscateID id)

/-- `parseShortCode` from the source: base62-decode (propagating its
error) then deobfuscate. -/
def parseShortCode (shortCode : String) : Except String Nat :=
  match decodeBase62 shortCode with
  | Except.error e => Except.error e
  | Except.ok obfuscated => Except.ok (deobfuscateID obfuscated)

/-- ASCII letter, the only characters that may start a URL scheme. -/
def isSchemeLetter (c : Char) : Bool :=
  ('a' ≤ c && c ≤ 'z') || ('A' ≤ c && c ≤ 'Z')

/-- Characters allowed after the first character of a URL scheme. -/
def isSchemeRest (c : Char) : Bool :=
  isSchemeLetter c || ('0' ≤ c && c ≤ '9') || c == '+' || c == '-' || c == '.'

/-- Modelled from the spec: the scheme scanner of URL parsing (the
source calls the Go standard library's `url.Parse`, which is not part
of this repository).  Scans for a `:` preceded only by scheme
characters; returns the scheme body and the remainder, `none` when the
string simply has no scheme (spec: such URLs are "unparseable" only in
the stricter cases handled by `schemeSplit`). -/
def schemeSplitTail : List Char → Option (List Char × List Char)
  | [] => none
  | c :: rest =>
    if c == ':' then some ([], rest)
    else if isSchemeRest c then
      (schemeSplitTail rest).map (fun p => (c :: p.1, p.2))
    else none

/-- Modelled from the spec: splitting a raw URL into scheme and
remainder.  A leading `:` is a parse error ("missing protocol
scheme"); a string whose first character cannot start a scheme, or in
which no well-formed `scheme:` prefix occurs, parses with an empty
scheme and the whole string as remainder. -/
def schemeSplit : List Char → Option (List Char × List Char)
  | [] => some ([], [])
  | c :: rest =>
    if c == ':' then none
    else if isSchemeLetter c then
      match schemeSplitTail rest with
      | some (sch, rem) => some (c :: sch, rem)
      | none => some ([], c :: rest)
    else some ([], c :: rest)

/-- The authority component after stripping userinfo: the characters
after the last `@`. -/
def dropUserinfo (authority : List Char) : List Char :=
  authority.foldl (fun acc c => if c == '@' then [] else acc ++ [c]) []

/-- Modelled from the spec: URL parsing as the validation layer needs
it, in place of the Go standard library's `url.Parse`.  Produces the
scheme (lower-cased) and host of the URL, or `none` when the URL is
unparseable (contains an ASCII control character, or starts with `:`
so the scheme is missing).  The host is the authority introduced by
`//`, up to the next `/`, `?` or `#`, with userinfo stripped; a URL
without `//` has an empty host. -/
def urlParse (rawURL : String) : Option (String × String) :=
  if rawURL.data.any (fun c => c.toNat < 0x20 || c.toNat == 0x7f) then none
  else
    match schemeSplit rawURL.data with
    | none => none
    | some (sch, rest) =>
      let scheme := String.mk (sch.map Char.toLower)
      let host :=
        match rest with
        | '/' :: '/' :: tail =>
          String.mk (dropUserinfo
            (tail.takeWhile (fun c => !(c == '/' || c == '?' || c == '#'))))
        | _ => ""
      some (scheme, host)

/-- `validateURL` from the source: reject the empty string, an
unparseable URL, a scheme other than exactly `http`/`https`, and an
empty host, with the error messages of the Go code. -/
def validateURL (rawURL : String) : Except String Unit :=
  if rawURL = "" then Except.error ("URL cannot be empty")
  else
    match urlParse rawURL with
    | none => Except.error ("invalid URL format")
    | some (scheme, host) =>
      if scheme ≠ "http" ∧ scheme ≠ "https" then
        Except.error ("URL must use http or https scheme")
      else if host = "" then Except.error ("URL must have a valid host")
      else Except.ok ()

/-- A row of the `urls` table (`URLRecord` in the source).  Timestamps
are abstract `Nat` instants supplied by the caller. -/
structure URLRecord where
  id : Nat
  shortCode : String
  originalURL : String
  createdAt : Nat
  clicks : Nat
  lastClickedAt : Option Nat
deriving DecidableEq

/-- A row of the `clicks` table (one tracked click event). -/
structure ClickEvent where
  urlId : Nat
  clickedAt : Nat
  userAgent : String
  referer : String
  ipAddress : String
deriving DecidableEq

/-- The persistent state the handlers share: the two SQLite tables and
the autoincrement counter of `urls` (SQLite primary keys start at 1). -/
structure Store where
  urls : List URLRecord
  clicks : List ClickEvent
  nextId : Nat
deriving DecidableEq

/-- The empty database after `initDB`. -/
def initialStore : Store := { urls := [], clicks := [], nextId := 1 }

/-- `ShortenResponse` from the source. -/
structure ShortenResponse where
  shortCode : String
  shortURL : String
  originalURL : String
  createdAt : Nat
deriving DecidableEq

/-- `URLStats` from the source. -/
structure URLStats where
  shortCode : String
  originalURL : String
  createdAt : Nat
  totalClicks : Nat
  lastClickedAt : Option Nat
deriving DecidableEq

/-- The row inserted by the insert phase of `createShortURL`, before
its `short_code` is filled in. -/
def newRecord (id : Nat) (rawURL : String) (now : Nat) : URLRecord :=
  { id := id, shortCode := "", originalURL := rawURL, createdAt := now,
    clicks := 0, lastClickedAt := none }

/-- The row as it stands after the update phase of `createShortURL`
filled in the short code. -/
def insertedRecord (id : Nat) (rawURL : String) (now : Nat) : URLRecord :=
  { id := id, shortCode := generateShortCode id, originalURL := rawURL,
    createdAt := now, clicks := 0, lastClickedAt := none }

/-- `createShortURL` from the source, with the SQL statements embedded
as list operations on the store: validate; `SELECT` by
`original_url` (first matching row); on a hit re-derive the code from
the existing id and re-`SELECT` the row by id; otherwise `INSERT` a
row with an empty code under the next autoincrement id, `UPDATE` its
code to `generateShortCode id`, and `SELECT` the final row.  `now` is
the `CURRENT_TIMESTAMP` default applied on insert, `port` is
`a.config.Port`. -/
def createShortURL (port : String) (now : Nat) (s : Store) (rawURL : String) :
    Except String (ShortenResponse × Store) :=
  match validateURL rawURL with
  | Except.error e => Except.error e
  | Except.ok _ =>
    match s.urls.find? (fun r => r.originalURL == rawURL) with
    | some existing =>
      let shortCode := generateShortCode existing.id
      match s.urls.find? (fun r => r.id == existing.id) with
      | some record =>
        Except.ok ({ shortCode := shortCode,
                     shortURL := ("http://localhost:") ++ port ++ ("/") ++ shortCode,
                     originalURL := record.originalURL,
                     createdAt := record.createdAt }, s)
      | none => Except.error ("failed to fetch existing record")
    | none =>
      let id := s.nextId
      let shortCode := generateShortCode id
      let s2 : Store :=
        { urls := (s.urls ++ [newRecord id rawURL now]).map
            (fun r => if r.id = id then { r with shortCode := shortCode } else r),
          clicks := s.clicks,
          nextId := id + 1 }
      match s2.urls.find? (fun r => r.id == id) with
      | some record =>
        Except.ok ({ shortCode := record.shortCode,
                     shortURL := ("http://localhost:") ++ port ++ ("/") ++ record.shortCode,
                     originalURL := record.originalURL,
                     createdAt := record.createdAt }, s2)
      | none => Except.error ("failed to fetch created record")

/-- `getURL` from the source: exact lookup of the first row whose
`short_code` matches; `sql.ErrNoRows` becomes the not-found error. -/
def getURL (s : Store) (shortCode : String) : Except String URLRecord :=
  match s.urls.find? (fun r => r.shortCode == shortCode) with
  | some record => Except.ok record
  | none => Except.error ("short code not found")

/-- `trackClick` from the source.  The whole body runs in one SQLite
transaction: the click `INSERT` and the counter/timestamp `UPDATE`
become visible together at `Commit`, and any failure (begin, either
statement, or commit) rolls the transaction back leaving the store
untouched.  The boolean `commitOk` is the failure oracle abstracting
those storage faults; the pair result carries the Go error alongside
the store the caller observes afterwards. -/
def trackClick (commitOk : Bool) (now : Nat) (s : Store) (urlID : Nat)
    (userAgent referer ipAddress : String) : Except String Unit × Store :=
  let committed : Store :=
    { urls := s.urls.map (fun r =>
        if r.id = urlID then
          { r with clicks := r.clicks + 1, lastClickedAt := some now }
        else r),
      clicks := s.clicks ++
        [{ urlId := urlID, clickedAt := now, userAgent := userAgent,
           referer := referer, ipAddress := ipAddress }],
      nextId := s.nextId }
  if commitOk then (Except.ok (), committed)
  else (Except.error ("failed to commit transaction"), s)

/-- `getStats` from the source: same lookup as `getURL`, projected to
the read-only stats view. -/
def getStats (s : Store) (shortCode : String) : Except String URLStats :=
  match s.urls.find? (fun r => r.shortCode == shortCode) with
  | some record =>
    Except.ok { shortCode := record.shortCode,
                originalURL := record.originalURL,
                createdAt := record.createdAt,
                totalClicks := record.clicks,
                lastClickedAt := record.lastClickedAt }
  | none => Except.error ("short code not found")

/-- One request against the store, at the granularity of the HTTP
handlers (`handleShorten`/`handleShortenGET`, `handleRedirect`,
`handleStats`): a redirect looks the record up by code and tracks a
click on that record's id, exactly as `handleRedirect` does. -/
inductive Op where
  | shorten (now : Nat) (port : String) (url : String)
  | redirect (now : Nat) (code : String) (commitOk : Bool)
      (userAgent referer ipAddress : String)
  | stats (code : String)

/-- The store after one operation; a failed operation leaves the store
as it was (errors are reported to the HTTP caller, rollback is already
part of `trackClick`). -/
def step (s : Store) (op : Op) : Store :=
  match op with
  | Op.shorten now port url =>
    match createShortURL port now s url with
    | Except.ok (_, s2) => s2
    | Except.error _ => s
  | Op.redirect now code commitOk ua ref ip =>
    match getURL s code with
    | Except.ok record => (trackClick commitOk now s record.id ua ref ip).2
    | Except.error _ => s
  | Op.stats _ => s

/-- The store reached from the empty database by a sequence of
requests. -/
def runOps (ops : List Op) : Store :=
  ops.foldl step initialStore

/-- Number of click events referencing a given record id. -/
def clickCount (events : List ClickEvent) (id : Nat) : Nat :=
  (events.filter (fun e => e.urlId == id)).length

/-- The click event `trackClick` inserts. -/
def mkClick (uid tnow : Nat) (ua ref ip : String) : ClickEvent :=
  { urlId := uid, clickedAt := tnow, userAgent := ua, referer := ref,
    ipAddress := ip }

/-- Sample row used by the concrete witnesses: the row created by
shortening `https://example.com/x` into the empty store. -/
def sampleRow : URLRecord :=
  { id := 1, shortCode := "1to7HG", originalURL := "https://example.com/x",
    createdAt := 0, clicks := 0, lastClickedAt := none }

/-- Sample one-row store used by the concrete witnesses. -/
def sampleStore : Store :=
  { urls := [sampleRow], clicks := [], nextId := 2 }

/-- `sampleRow` after one click at instant 7. -/
def clickedRow : URLRecord :=
  { id := 1, shortCode := "1to7HG", originalURL := "https://example.com/x",
    createdAt := 0, clicks := 1, lastClickedAt := some 7 }

/-- Stats view of `sampleRow`. -/
def sampleStats : URLStats :=
  { shortCode := "1to7HG", originalURL := "https://example.com/x",
    createdAt := 0, totalClicks := 0, lastClickedAt := none }

/-- The inductive invariant of the store: ids are below the
autoincrement counter, every stored code is derived from the row's own
id, click events reference already-issued ids, and every click counter
equals the number of events for that id. -/
def Inv (s : Store) : Prop :=
  (∀ r ∈ s.urls, r.id < s.nextId) ∧
  (∀ r ∈ s.urls, r.shortCode = generateShortCode r.id) ∧
  (∀ e ∈ s.clicks, e.urlId < s.nextId) ∧
  (∀ r ∈ s.urls, r.clicks = clickCount s.clicks r.id)

end UL

namespace UL

/-- C1 The spec requires `parseShortCode (generateShortCode id) = id`
on all of `[0, 2^31)`, and the source comments claim `mixPrimeInverse`
is the modular inverse of `mixPrime` mod `2^31`.  Both are false: at
`id = 0` the round trip returns `537028968`, and the product of the two
constants is `2073975801 ≢ 1 (mod 2^31)`. -/
theorem roundtrip_fails_at_zero :
    parseShortCode (generateShortCode 0) = Except.ok 537028968 ∧
    (537028968 : Nat) ≠ 0 ∧
    mixPrime * mixPrimeInverse % 2 ^ 31 ≠ 1 := by
  refine ⟨?_, by decide, by decide⟩
  rfl

/-- C8 Base62 boundary values under the fixed alphabet:
`encodeBase62 0 = "0"`, `encodeBase62 61 = "z"`,
`encodeBase62 62 = "10"` (most significant digit first). -/
theorem encodeBase62_boundaries :
    encodeBase62 0 = "0" ∧ encodeBase62 61 = "z" ∧ encodeBase62 62 = "10" := by
  refine ⟨rfl, rfl, rfl⟩

/-- C9 Obfuscation is active, not a no-op: for the tested identifiers
0, 1, 100 and 999999, `obfuscateID id ≠ id` and the generated short
code differs from the decimal representation of `id`. -/
theorem obfuscation_not_noop :
    (obfuscateID 0 ≠ 0 ∧ obfuscateID 1 ≠ 1 ∧
     obfuscateID 100 ≠ 100 ∧ obfuscateID 999999 ≠ 999999) ∧
    (generateShortCode 0 ≠ "0" ∧ generateShortCode 1 ≠ "1" ∧
     generateShortCode 100 ≠ "100" ∧ generateShortCode 999999 ≠ "999999") := by
  exact ⟨⟨by decide, by decide, by decide, by decide⟩,
    ⟨by decide, by decide, by decide, by decide⟩⟩

/-- Updating rows whose id does not occur in the list changes
nothing. -/
theorem map_update_of_ne {l : List URLRecord} {id : Nat}
    (g : URLRecord → URLRecord) (h : ∀ r ∈ l, r.id ≠ id) :
    l.map (fun r => if r.id = id then g r else r) = l := by
  induction l with
  | nil => rfl
  | cons x xs ih =>
    rw [List.map_cons, if_neg (h x (List.mem_cons_self x xs)),
      ih (fun r hr => h r (List.mem_cons_of_mem x hr))]

/-- A `find?` whose first block misses continues in the second. -/
theorem find_append_of_none {α} {p : α → Bool} {l1 l2 : List α}
    (h : l1.find? p = none) : (l1 ++ l2).find? p = l2.find? p := by
  rw [List.find?_append, h, Option.none_or]

/-- No row of a fresh-id store carries the next autoincrement id. -/
theorem find_id_eq_none {s : Store} (hfresh : ∀ r ∈ s.urls, r.id < s.nextId) :
    s.urls.find? (fun r => r.id == s.nextId) = none := by
  rw [List.find?_eq_none]
  intro r hr
  simp only [beq_iff_eq]
  exact Nat.ne_of_lt (hfresh r hr)

/-- Characterization of the insert path of `createShortURL`: on a
validated URL not yet stored, in a store whose row ids are below the
autoincrement counter, it returns the freshly inserted row (with its
code already updated) and appends exactly that row. -/
theorem createShortURL_insert {port : String} {now : Nat} {s : Store} {u : String}
    (hval : validateURL u = Except.ok ())
    (hmiss : s.urls.find? (fun r => r.originalURL == u) = none)
    (hfresh : ∀ r ∈ s.urls, r.id < s.nextId) :
    createShortURL port now s u = Except.ok
      ({ shortCode := generateShortCode s.nextId,
         shortURL := ("http://localhost:") ++ port ++ ("/") ++ generateShortCode s.nextId,
         originalURL := u,
         createdAt := now },
       { urls := s.urls ++ [insertedRecord s.nextId u now],
         clicks := s.clicks,
         nextId := s.nextId + 1 }) := by
  have hne : ∀ r ∈ s.urls, r.id ≠ s.nextId :=
    fun r hr => Nat.ne_of_lt (hfresh r hr)
  have hmap : (s.urls ++ [newRecord s.nextId u now]).map
      (fun r => if r.id = s.nextId then { r with shortCode := generateShortCode s.nextId } else r)
      = s.urls ++ [insertedRecord s.nextId u now] := by
    rw [List.map_append, map_update_of_ne _ hne, List.map_cons, List.map_nil]
    simp [newRecord, insertedRecord]
  have hfind : (s.urls ++ [insertedRecord s.nextId u now]).find?
      (fun r => r.id == s.nextId) = some (insertedRecord s.nextId u now) := by
    rw [find_append_of_none (find_id_eq_none hfresh)]
    exact List.find?_cons_of_pos _ (by simp [insertedRecord])
  simp only [createShortURL, hval, hmiss, hmap, hfind]
  rfl

/-- Characterization of the idempotent path of `createShortURL`: when
a row with the requested URL exists, the response re-derives the code
from that row's id, copies the url and creation time of the first row
with that id, and the store is unchanged. -/
theorem createShortURL_found {port : String} {now : Nat} {s : Store} {u : String}
    {existing record : URLRecord}
    (hval : validateURL u = Except.ok ())
    (hhit : s.urls.find? (fun r => r.originalURL == u) = some existing)
    (hbyid : s.urls.find? (fun r => r.id == existing.id) = some record) :
    createShortURL port now s u = Except.ok
      ({ shortCode := generateShortCode existing.id,
         shortURL := ("http://localhost:") ++ port ++ ("/") ++ generateShortCode existing.id,
         originalURL := record.originalURL,
         createdAt := record.createdAt }, s) := by
  simp only [createShortURL, hval, hhit, hbyid]

/-- A successful `find?` can be found for any predicate some member
satisfies. -/
theorem find_some_of_exists {α} {p : α → Bool} {l : List α}
    (h : ∃ x ∈ l, p x) : ∃ y, l.find? p = some y := by
  induction l with
  | nil =>
    obtain ⟨x, hx, -⟩ := h
    exact absurd hx (List.not_mem_nil x)
  | cons a as ih =>
    cases hp : p a with
    | true => exact ⟨a, List.find?_cons_of_pos _ hp⟩
    | false =>
      obtain ⟨x, hx, hpx⟩ := h
      have hxas : x ∈ as := by
        rcases List.mem_cons.mp hx with h1 | h1
        · rw [h1] at hpx
          rw [hp] at hpx
          exact Bool.noConfusion hpx
        · exact h1
      obtain ⟨y, hy⟩ := ih ⟨x, hxas, hpx⟩
      exact ⟨y, by rw [List.find?_cons_of_neg _ (by simp [hp]), hy]⟩

/-- `indexIn` returns `none` exactly on characters absent from the
list (the Go sentinel `-1` case). -/
theorem indexIn_eq_none (c : Char) (l : List Char) : indexIn c l = none ↔ c ∉ l := by
  induction l with
  | nil => simp [indexIn]
  | cons x xs ih =>
    by_cases hx : x == c
    · have hxc : x = c := by simpa using hx
      subst hxc
      simp [indexIn]
    · have hne : x ≠ c := by simpa using hx
      have hcx : ¬c = x := fun h => hne h.symm
      simp [indexIn, hx, ih, List.mem_cons, hcx]

/-- On a list of alphabet characters, `decodeLoop` always succeeds. -/
theorem decodeLoop_ok (l : List Char) :
    (∀ c ∈ l, c ∈ base62Chars.data) → ∀ num, ∃ n, decodeLoop num l = Except.ok n := by
  induction l with
  | nil => exact fun _ num => ⟨num, rfl⟩
  | cons c rest ih =>
    intro h num
    have hc : c ∈ base62Chars.data := h c (List.mem_cons_self c rest)
    cases hix : indexIn c base62Chars.data with
    | none => exact absurd ((indexIn_eq_none c _).mp hix) (by simpa using hc)
    | some v =>
      obtain ⟨n, hn⟩ := ih (fun d hd => h d (List.mem_cons_of_mem c hd)) ((num * 62 + v) % 2 ^ 64)
      exact ⟨n, by simpa [decodeLoop, hix] using hn⟩

/-- On a list containing a character outside the alphabet, `decodeLoop`
fails with the invalid-character message of the first such character,
whatever the accumulator. -/
theorem decodeLoop_error (l : List Char) :
    (∃ c ∈ l, c ∉ base62Chars.data) →
    ∃ cc, cc ∈ l ∧ cc ∉ base62Chars.data ∧
      ∀ num, decodeLoop num l = Except.error (invalidCharMsg cc) := by
  induction l with
  | nil =>
    rintro ⟨c, hc, -⟩
    exact absurd hc (List.not_mem_nil c)
  | cons c rest ih =>
    rintro ⟨d, hd, hdn⟩
    cases hix : indexIn c base62Chars.data with
    | none =>
      refine ⟨c, List.mem_cons_self c rest, (indexIn_eq_none c _).mp hix, fun num => ?_⟩
      simp [decodeLoop, hix]
    | some v =>
      have hcmem : c ∈ base62Chars.data := by
        by_contra hx
        rw [← indexIn_eq_none, hix] at hx
        exact Option.noConfusion hx
      have hd2 : d ∈ rest := by
        rcases List.mem_cons.mp hd with h1 | h1
        · exact absurd (h1 ▸ hcmem) hdn
        · exact h1
      obtain ⟨cc, h1, h2, h3⟩ := ih ⟨d, hd2, hdn⟩
      refine ⟨cc, List.mem_cons_of_mem c h1, h2, fun num => ?_⟩
      simp [decodeLoop, hix, h3]

/-- The format error of `decodeBase62` is never the not-found error of
the lookup path. -/
theorem invalidCharMsg_ne_notFound (c : Char) :
    invalidCharMsg c ≠ ("short code not found") := by
  intro h
  have h3 : (invalidCharMsg c).data
      = ("invalid character in short code: " : String).data ++ [c] := rfl
  have h2 : (invalidCharMsg c).data.length
      = ("short code not found" : String).data.length := by rw [h]
  rw [h3, List.length_append] at h2
  have e1 : ("invalid character in short code: " : String).data.length = 33 := rfl
  have e2 : ("short code not found" : String).data.length = 20 := rfl
  rw [e1, e2] at h2
  simp at h2

/-- Appending one event adds one to the count of its id and nothing
to any other. -/
theorem clickCount_append_single (l : List ClickEvent) (e : ClickEvent) (id : Nat) :
    clickCount (l ++ [e]) id = clickCount l id + (if e.urlId = id then 1 else 0) := by
  by_cases h : e.urlId = id
  · simp [clickCount, List.filter_append, h]
  · simp [clickCount, List.filter_append, h]

/-- `clickCount_append_single` with the event spelled out, so the
branch condition mentions only the tracked id. -/
theorem clickCount_append_mk (l : List ClickEvent) (uid tnow : Nat)
    (ua ref ip : String) (id : Nat) :
    clickCount (l ++ [mkClick uid tnow ua ref ip]) id
      = clickCount l id + (if uid = id then 1 else 0) :=
  clickCount_append_single l _ id

/-- A count over events that never reference `id` is zero. -/
theorem clickCount_eq_zero {l : List ClickEvent} {id : Nat}
    (h : ∀ e ∈ l, e.urlId ≠ id) : clickCount l id = 0 := by
  have : l.filter (fun e => e.urlId == id) = [] := by
    rw [List.filter_eq_nil_iff]
    intro e he
    simpa using h e he
  simp [clickCount, this]

/-- A successful `getURL` returns a stored row whose code is the one
looked up. -/
theorem getURL_ok_mem {s : Store} {code : String} {record : URLRecord}
    (h : getURL s code = Except.ok record) :
    record ∈ s.urls ∧ record.shortCode = code := by
  rw [getURL] at h
  cases hf : s.urls.find? (fun r => r.shortCode == code) with
  | none =>
    rw [hf] at h
    exact Except.noConfusion h
  | some r =>
    rw [hf] at h
    simp only [Except.ok.injEq] at h
    subst h
    exact ⟨List.mem_of_find?_eq_some hf, by simpa using List.find?_some hf⟩

/-- `createShortURL` preserves the store invariant. -/
theorem createShortURL_inv {port : String} {now : Nat} {s : Store} {u : String}
    {resp : ShortenResponse} {s2 : Store} (hInv : Inv s)
    (h : createShortURL port now s u = Except.ok (resp, s2)) : Inv s2 := by
  obtain ⟨hids, hcodes, hevs, hcounts⟩ := hInv
  cases hv : validateURL u with
  | error e =>
    rw [createShortURL, hv] at h
    exact Except.noConfusion h
  | ok uv =>
    cases uv
    cases hm : s.urls.find? (fun r => r.originalURL == u) with
    | some existing =>
      cases hbyid : s.urls.find? (fun r => r.id == existing.id) with
      | none =>
        simp [createShortURL, hv, hm, hbyid] at h
      | some record =>
        rw [createShortURL_found hv hm hbyid] at h
        simp only [Except.ok.injEq, Prod.mk.injEq] at h
        rw [← h.2]
        exact ⟨hids, hcodes, hevs, hcounts⟩
    | none =>
      rw [createShortURL_insert hv hm hids] at h
      simp only [Except.ok.injEq, Prod.mk.injEq] at h
      rw [← h.2]
      refine ⟨?_, ?_, ?_, ?_⟩
      · intro r hr
        rcases List.mem_append.mp hr with h1 | h1
        · exact Nat.lt_succ_of_lt (hids r h1)
        · rw [List.mem_singleton.mp h1]
          exact Nat.lt_succ_self s.nextId
      · intro r hr
        rcases List.mem_append.mp hr with h1 | h1
        · exact hcodes r h1
        · rw [List.mem_singleton.mp h1]
          rfl
      · intro e he
        exact Nat.lt_succ_of_lt (hevs e he)
      · intro r hr
        rcases List.mem_append.mp hr with h1 | h1
        · exact hcounts r h1
        · rw [List.mem_singleton.mp h1]
          exact (clickCount_eq_zero
            (fun e he => Nat.ne_of_lt (hevs e he))).symm

/-- `trackClick` preserves the store invariant whenever the tracked id
is the id of a stored row (as in `handleRedirect`, which passes the id
of the row found by `getURL`). -/
theorem trackClick_inv {ck : Bool} {now : Nat} {s : Store} {urlID : Nat}
    {ua ref ip : String} (hInv : Inv s)
    (hmem : ∃ r ∈ s.urls, r.id = urlID) :
    Inv (trackClick ck now s urlID ua ref ip).2 := by
  obtain ⟨hids, hcodes, hevs, hcounts⟩ := hInv
  obtain ⟨r0, hr0, hr0id⟩ := hmem
  cases ck with
  | false => exact ⟨hids, hcodes, hevs, hcounts⟩
  | true =>
    have ht : (trackClick true now s urlID ua ref ip).2 =
        { urls := s.urls.map (fun r =>
            if r.id = urlID then
              { r with clicks := r.clicks + 1, lastClickedAt := some now }
            else r),
          clicks := s.clicks ++ [mkClick urlID now ua ref ip],
          nextId := s.nextId } := rfl
    rw [ht]
    refine ⟨?_, ?_, ?_, ?_⟩
    · intro r hr
      obtain ⟨r1, hr1, rfl⟩ := List.mem_map.mp hr
      by_cases h : r1.id = urlID
      · rw [if_pos h]
        exact hids r1 hr1
      · rw [if_neg h]
        exact hids r1 hr1
    · intro r hr
      obtain ⟨r1, hr1, rfl⟩ := List.mem_map.mp hr
      by_cases h : r1.id = urlID
      · rw [if_pos h]
        exact hcodes r1 hr1
      · rw [if_neg h]
        exact hcodes r1 hr1
    · intro e he
      rcases List.mem_append.mp he with h1 | h1
      · exact hevs e h1
      · rw [List.mem_singleton.mp h1]
        rw [← hr0id]
        exact hids r0 hr0
    · intro r hr
      obtain ⟨r1, hr1, rfl⟩ := List.mem_map.mp hr
      by_cases h : r1.id = urlID
      · rw [if_pos h]
        show r1.clicks + 1
          = clickCount (s.clicks ++ [mkClick urlID now ua ref ip]) r1.id
        rw [clickCount_append_mk, if_pos h.symm, hcounts r1 hr1]
      · rw [if_neg h]
        show r1.clicks
          = clickCount (s.clicks ++ [mkClick urlID now ua ref ip]) r1.id
        rw [clickCount_append_mk, if_neg (fun hh => h hh.symm), Nat.add_zero,
          hcounts r1 hr1]

/-- Each handler-level operation preserves the store invariant. -/
theorem step_inv {s : Store} (hInv : Inv s) (op : Op) : Inv (step s op) := by
  cases op with
  | shorten now port url =>
    cases hres : createShortURL port now s url with
    | ok p =>
      obtain ⟨resp, s2⟩ := p
      simp only [step, hres]
      exact createShortURL_inv hInv hres
    | error e =>
      simp only [step, hres]
      exact hInv
  | redirect now code ck ua ref ip =>
    cases hres : getURL s code with
    | ok record =>
      simp only [step, hres]
      exact trackClick_inv hInv ⟨record, (getURL_ok_mem hres).1, rfl⟩
    | error e =>
      simp only [step, hres]
      exact hInv
  | stats code => exact hInv

/-- The empty database satisfies the invariant. -/
theorem inv_init : Inv initialStore :=
  ⟨fun r hr => absurd hr (List.not_mem_nil r),
   fun r hr => absurd hr (List.not_mem_nil r),
   fun e he => absurd he (List.not_mem_nil e),
   fun r hr => absurd hr (List.not_mem_nil r)⟩

/-- The invariant propagates through any request sequence. -/
theorem foldl_inv (ops : List Op) : ∀ s, Inv s → Inv (List.foldl step s ops) := by
  induction ops with
  | nil => exact fun s h => h
  | cons op ops ih => exact fun s h => ih (step s op) (step_inv h op)

/-- Every store reachable from the empty database satisfies the
invariant. -/
theorem runOps_inv (ops : List Op) : Inv (runOps ops) :=
  foldl_inv ops initialStore inv_init

/-- C2 Idempotent creation: if `createShortURL` succeeds for a URL and
is called again with the same URL, the second call returns the same
short code and the same creation time, and leaves the store exactly as
it was — no new row, no new id, existing row untouched.  The store
only needs its autoincrement counter to dominate the stored ids, which
every store reachable from the empty database satisfies. -/
theorem createShortURL_idempotent (port1 port2 : String) (now1 now2 : Nat)
    (s : Store) (u : String) (resp1 resp2 : ShortenResponse) (s1 s2 : Store)
    (hfresh : ∀ r ∈ s.urls, r.id < s.nextId)
    (h1 : createShortURL port1 now1 s u = Except.ok (resp1, s1))
    (h2 : createShortURL port2 now2 s1 u = Except.ok (resp2, s2)) :
    resp2.shortCode = resp1.shortCode ∧ resp2.createdAt = resp1.createdAt ∧
    s2 = s1 := by
  cases hv : validateURL u with
  | error e =>
    rw [createShortURL, hv] at h1
    exact Except.noConfusion h1
  | ok uv =>
    cases uv
    cases hm : s.urls.find? (fun r => r.originalURL == u) with
    | some existing =>
      obtain ⟨record, hbyid⟩ :=
        find_some_of_exists (p := fun r => r.id == existing.id)
          ⟨existing, List.mem_of_find?_eq_some hm, by simp⟩
      rw [createShortURL_found hv hm hbyid] at h1
      simp only [Except.ok.injEq, Prod.mk.injEq] at h1
      obtain ⟨hresp1, hstore1⟩ := h1
      subst hresp1
      subst hstore1
      rw [createShortURL_found hv hm hbyid] at h2
      simp only [Except.ok.injEq, Prod.mk.injEq] at h2
      obtain ⟨hresp2, hstore2⟩ := h2
      subst hresp2
      subst hstore2
      exact ⟨rfl, rfl, rfl⟩
    | none =>
      rw [createShortURL_insert hv hm hfresh] at h1
      simp only [Except.ok.injEq, Prod.mk.injEq] at h1
      obtain ⟨hresp1, hstore1⟩ := h1
      subst hresp1
      subst hstore1
      have hm2 : (s.urls ++ [insertedRecord s.nextId u now1]).find?
          (fun r => r.originalURL == u) = some (insertedRecord s.nextId u now1) := by
        rw [find_append_of_none hm]
        exact List.find?_cons_of_pos _ (by simp [insertedRecord])
      have hbyid2 : (s.urls ++ [insertedRecord s.nextId u now1]).find?
          (fun r => r.id == (insertedRecord s.nextId u now1).id)
          = some (insertedRecord s.nextId u now1) := by
        rw [show (insertedRecord s.nextId u now1).id = s.nextId from rfl,
          find_append_of_none (find_id_eq_none hfresh)]
        exact List.find?_cons_of_pos _ (by simp [insertedRecord])
      rw [createShortURL_found hv hm2 hbyid2] at h2
      simp only [Except.ok.injEq, Prod.mk.injEq] at h2
      obtain ⟨hresp2, hstore2⟩ := h2
      subst hresp2
      subst hstore2
      exact ⟨rfl, rfl, rfl⟩

/-- Witness for C2: creating `"https://example.com/x"` twice from the
empty store yields the identical response both times and the second
call leaves the store unchanged. -/
theorem createShortURL_idempotent_witness :
    (∀ r ∈ initialStore.urls, r.id < initialStore.nextId) ∧
    createShortURL ("7000") 0 initialStore ("https://example.com/x")
      = Except.ok
        ({ shortCode := "1to7HG", shortURL := "http://localhost:7000/1to7HG",
           originalURL := "https://example.com/x", createdAt := 0 },
         { urls := [{ id := 1, shortCode := "1to7HG",
                      originalURL := "https://example.com/x", createdAt := 0,
                      clicks := 0, lastClickedAt := none }],
           clicks := [], nextId := 2 }) ∧
    createShortURL ("7000") 5
      { urls := [{ id := 1, shortCode := "1to7HG",
                   originalURL := "https://example.com/x", createdAt := 0,
                   clicks := 0, lastClickedAt := none }],
        clicks := [], nextId := 2 } ("https://example.com/x")
      = Except.ok
        ({ shortCode := "1to7HG", shortURL := "http://localhost:7000/1to7HG",
           originalURL := "https://example.com/x", createdAt := 0 },
         { urls := [{ id := 1, shortCode := "1to7HG",
                      originalURL := "https://example.com/x", createdAt := 0,
                      clicks := 0, lastClickedAt := none }],
           clicks := [], nextId := 2 }) ∧
    (({ shortCode := "1to7HG", shortURL := "http://localhost:7000/1to7HG",
        originalURL := "https://example.com/x", createdAt := 0 } : ShortenResponse).shortCode
       = ({ shortCode := "1to7HG", shortURL := "http://localhost:7000/1to7HG",
            originalURL := "https://example.com/x", createdAt := 0 } : ShortenResponse).shortCode ∧
     ({ shortCode := "1to7HG", shortURL := "http://localhost:7000/1to7HG",
        originalURL := "https://example.com/x", createdAt := 0 } : ShortenResponse).createdAt
       = ({ shortCode := "1to7HG", shortURL := "http://localhost:7000/1to7HG",
            originalURL := "https://example.com/x", createdAt := 0 } : ShortenResponse).createdAt ∧
     ({ urls := [{ id := 1, shortCode := "1to7HG",
                   originalURL := "https://example.com/x", createdAt := 0,
                   clicks := 0, lastClickedAt := none }],
        clicks := [], nextId := 2 } : Store)
       = { urls := [{ id := 1, shortCode := "1to7HG",
                      originalURL := "https://example.com/x", createdAt := 0,
                      clicks := 0, lastClickedAt := none }],
           clicks := [], nextId := 2 }) :=
  ⟨by decide, rfl, rfl,
   createShortURL_idempotent ("7000") ("7000") 0 5 initialStore
     ("https://example.com/x") _ _ _ _ (by decide) rfl rfl⟩

/-- C3 Stored-row consistency: after any sequence of handler-level
operations starting from the empty database, every persisted row's
`short_code` equals `generateShortCode` of that row's own id — in
particular this holds for the row a successful `createShortURL` just
created or returned. -/
theorem stored_codes_consistent (ops : List Op) :
    ∀ r ∈ (runOps ops).urls, r.shortCode = generateShortCode r.id :=
  (runOps_inv ops).2.1

/-- Witness for C3: the row created by one shorten request carries the
code derived from its own id 1. -/
theorem stored_codes_consistent_witness :
    sampleRow.shortCode = generateShortCode sampleRow.id :=
  stored_codes_consistent [Op.shorten 0 ("7000") ("https://example.com/x")]
    sampleRow (by decide)

/-- C4 Click accounting: in every store reachable from the empty
database, each row's `clicks` counter equals the number of click
events referencing that row's id; a committed `trackClick` appends
exactly one click event, bumps exactly the targeted row's counter by
one and stamps its `last_clicked_at`, leaving every other row in
place; and a failed transaction reports the commit error and leaves
the store exactly as it was (insert and update roll back together). -/
theorem click_accounting :
    (∀ ops : List Op, ∀ r ∈ (runOps ops).urls,
        r.clicks = clickCount (runOps ops).clicks r.id) ∧
    (∀ (now : Nat) (s : Store) (urlID : Nat) (ua ref ip : String),
        (trackClick true now s urlID ua ref ip).1 = Except.ok () ∧
        (trackClick true now s urlID ua ref ip).2.clicks
          = s.clicks ++ [mkClick urlID now ua ref ip] ∧
        (trackClick true now s urlID ua ref ip).2.nextId = s.nextId ∧
        (∀ r ∈ s.urls, r.id = urlID →
          ({ r with clicks := r.clicks + 1, lastClickedAt := some now } : URLRecord)
            ∈ (trackClick true now s urlID ua ref ip).2.urls) ∧
        (∀ r ∈ s.urls, r.id ≠ urlID →
          r ∈ (trackClick true now s urlID ua ref ip).2.urls)) ∧
    (∀ (now : Nat) (s : Store) (urlID : Nat) (ua ref ip : String),
        trackClick false now s urlID ua ref ip
          = (Except.error ("failed to commit transaction"), s)) := by
  refine ⟨fun ops => (runOps_inv ops).2.2.2, ?_, fun now s urlID ua ref ip => rfl⟩
  intro now s urlID ua ref ip
  refine ⟨rfl, rfl, rfl, ?_, ?_⟩
  · intro r hr hid
    have heq : (if r.id = urlID then
        ({ r with clicks := r.clicks + 1, lastClickedAt := some now } : URLRecord)
        else r)
        = { r with clicks := r.clicks + 1, lastClickedAt := some now } :=
      if_pos hid
    rw [← heq]
    exact List.mem_map_of_mem _ hr
  · intro r hr hid
    have heq : (if r.id = urlID then
        ({ r with clicks := r.clicks + 1, lastClickedAt := some now } : URLRecord)
        else r) = r :=
      if_neg hid
    rw [← heq]
    exact List.mem_map_of_mem _ hr

/-- Witness for C4: after one shorten and one committed redirect the
row's counter is 1 and matches the single event; a committed
`trackClick` on the one-row store contains the bumped row; a failed
one returns the commit error with the store untouched. -/
theorem click_accounting_witness :
    clickedRow.clicks
      = clickCount (runOps [Op.shorten 0 ("7000") ("https://example.com/x"),
          Op.redirect 7 ("1to7HG") true ("ua") ("rf") ("ip")]).clicks
          clickedRow.id ∧
    ({ sampleRow with clicks := sampleRow.clicks + 1, lastClickedAt := some 7 } : URLRecord)
      ∈ (trackClick true 7 sampleStore 1 ("ua") ("rf") ("ip")).2.urls ∧
    trackClick false 7 sampleStore 1 ("ua") ("rf") ("ip")
      = (Except.error ("failed to commit transaction"), sampleStore) :=
  ⟨click_accounting.1 [Op.shorten 0 ("7000") ("https://example.com/x"),
      Op.redirect 7 ("1to7HG") true ("ua") ("rf") ("ip")] clickedRow (by decide),
   (click_accounting.2.1 7 sampleStore 1 ("ua") ("rf") ("ip")).2.2.2.1 sampleRow
      (by decide) rfl,
   click_accounting.2.2 7 sampleStore 1 ("ua") ("rf") ("ip")⟩

/-- C6 Not-found behaviour: whenever no stored row's `short_code`
equals the looked-up code, both `getURL` and `getStats` fail with the
not-found error (they never return a row and are total functions);
when the lookup hits, `getURL` returns the stored row unchanged and
`getStats` its projection. -/
theorem lookup_not_found (s : Store) (code : String) :
    ((∀ r ∈ s.urls, r.shortCode ≠ code) →
      getURL s code = Except.error ("short code not found") ∧
      getStats s code = Except.error ("short code not found")) ∧
    (∀ record, s.urls.find? (fun r => r.shortCode == code) = some record →
      getURL s code = Except.ok record ∧ record ∈ s.urls ∧
      record.shortCode = code ∧
      getStats s code = Except.ok
        { shortCode := record.shortCode, originalURL := record.originalURL,
          createdAt := record.createdAt, totalClicks := record.clicks,
          lastClickedAt := record.lastClickedAt }) := by
  constructor
  · intro h
    have hf : s.urls.find? (fun r => r.shortCode == code) = none := by
      rw [List.find?_eq_none]
      intro r hr
      simpa using h r hr
    constructor
    · simp only [getURL, hf]
    · simp only [getStats, hf]
  · intro record hrec
    refine ⟨by simp only [getURL, hrec], List.mem_of_find?_eq_some hrec,
      by simpa using List.find?_some hrec, by simp only [getStats, hrec]⟩

/-- Witness for C6: on the one-row store, `"nonexistent"` and the
empty string both fail with the not-found error, and the stored code
is returned unchanged. -/
theorem lookup_not_found_witness :
    (getURL sampleStore ("nonexistent") = Except.error ("short code not found") ∧
      getStats sampleStore ("nonexistent")
        = Except.error ("short code not found")) ∧
    (getURL sampleStore ("") = Except.error ("short code not found") ∧
      getStats sampleStore ("") = Except.error ("short code not found")) ∧
    (getURL sampleStore ("1to7HG") = Except.ok sampleRow ∧
      sampleRow ∈ sampleStore.urls ∧ sampleRow.shortCode = "1to7HG" ∧
      getStats sampleStore ("1to7HG") = Except.ok sampleStats) :=
  ⟨(lookup_not_found sampleStore ("nonexistent")).1 (by decide),
   (lookup_not_found sampleStore ("")).1 (by decide),
   (lookup_not_found sampleStore ("1to7HG")).2 sampleRow (by decide)⟩

/-- C5 `validateURL` accepts exactly the non-empty, parseable URLs
whose scheme is exactly `http` or `https` and whose host is non-empty;
in particular `""`, `"not-a-url"`, `"ftp://example.com"` and
`"https://"` are rejected (with the respective validation messages)
while `"https://example.com"` and `"http://example.com"` are
accepted. -/
theorem validateURL_spec :
    (∀ s : String, (validateURL s).isOk = true ↔
        s ≠ "" ∧ ∃ scheme host, urlParse s = some (scheme, host) ∧
          (scheme = "http" ∨ scheme = "https") ∧ host ≠ "") ∧
    validateURL ("") = Except.error ("URL cannot be empty") ∧
    validateURL ("not-a-url") = Except.error ("URL must use http or https scheme") ∧
    validateURL ("ftp://example.com") = Except.error ("URL must use http or https scheme") ∧
    validateURL ("https://") = Except.error ("URL must have a valid host") ∧
    validateURL ("https://example.com") = Except.ok () ∧
    validateURL ("http://example.com") = Except.ok () := by
  refine ⟨?_, rfl, rfl, rfl, rfl, rfl, rfl⟩
  intro s
  by_cases hs : s = ""
  · subst hs
    apply iff_of_false
    · simp [validateURL, Except.isOk, Except.toBool]
    · rintro ⟨hne, -⟩
      exact hne rfl
  · rw [validateURL, if_neg hs]
    cases h : urlParse s with
    | none =>
      apply iff_of_false
      · simp [Except.isOk, Except.toBool]
      · rintro ⟨-, sc, ho, hparse, -, -⟩
        exact Option.noConfusion hparse
    | some p =>
      obtain ⟨scheme, host⟩ := p
      dsimp only
      by_cases hsc : scheme ≠ "http" ∧ scheme ≠ "https"
      · rw [if_pos hsc]
        apply iff_of_false
        · simp [Except.isOk, Except.toBool]
        · rintro ⟨-, sc, ho, hparse, hsch, -⟩
          simp only [Option.some.injEq, Prod.mk.injEq] at hparse
          obtain ⟨h1, h2⟩ := hparse
          subst h1
          rcases hsch with h3 | h3
          · exact hsc.1 h3
          · exact hsc.2 h3
      · rw [if_neg hsc]
        by_cases hh : host = ""
        · rw [if_pos hh]
          apply iff_of_false
          · simp [Except.isOk, Except.toBool]
          · rintro ⟨-, sc, ho, hparse, -, hho⟩
            simp only [Option.some.injEq, Prod.mk.injEq] at hparse
            obtain ⟨h1, h2⟩ := hparse
            subst h2
            exact hho hh
        · rw [if_neg hh]
          apply iff_of_true rfl
          refine ⟨hs, scheme, host, rfl, ?_, hh⟩
          by_cases h1 : scheme = "http"
          · exact Or.inl h1
          · refine Or.inr ?_
            by_contra h2
            exact hsc ⟨h1, h2⟩

/-- C7 `decodeBase62` (and hence `parseShortCode`) is a pure function
of the input string: it succeeds on every string all of whose
characters lie in the 62-character alphabet, and on any other string
it fails with the invalid-character format error — which is distinct
from the not-found error of the lookup path. -/
theorem decode_error_contract (s : String) :
    ((∀ c ∈ s.data, c ∈ base62Chars.data) →
      ∃ n, decodeBase62 s = Except.ok n ∧
        parseShortCode s = Except.ok (deobfuscateID n)) ∧
    ((∃ c ∈ s.data, c ∉ base62Chars.data) →
      ∃ c, c ∈ s.data ∧ c ∉ base62Chars.data ∧
        decodeBase62 s = Except.error (invalidCharMsg c) ∧
        parseShortCode s = Except.error (invalidCharMsg c) ∧
        invalidCharMsg c ≠ ("short code not found")) := by
  constructor
  · intro h
    obtain ⟨n, hn⟩ := decodeLoop_ok s.data h 0
    have hdec : decodeBase62 s = Except.ok n := hn
    exact ⟨n, hdec, by simp [parseShortCode, hdec]⟩
  · intro h
    obtain ⟨cc, h1, h2, h3⟩ := decodeLoop_error s.data h
    have hdec : decodeBase62 s = Except.error (invalidCharMsg cc) := h3 0
    exact ⟨cc, h1, h2, hdec, by simp [parseShortCode, hdec],
      invalidCharMsg_ne_notFound cc⟩

/-- Witness for C7: the all-alphabet string `"Az9"` decodes without
error, and the string `"a!"` fails with the format error on `'!'`. -/
theorem decode_error_contract_witness :
    (∃ n, decodeBase62 ("Az9") = Except.ok n ∧
      parseShortCode ("Az9") = Except.ok (deobfuscateID n)) ∧
    (∃ c, c ∈ ("a!" : String).data ∧ c ∉ base62Chars.data ∧
      decodeBase62 ("a!") = Except.error (invalidCharMsg c) ∧
      parseShortCode ("a!") = Except.error (invalidCharMsg c) ∧
      invalidCharMsg c ≠ ("short code not found")) :=
  ⟨(decode_error_contract ("Az9")).1 (by decide),
   (decode_error_contract ("a!")).2 ⟨'!', by decide, by decide⟩⟩

/-- C10 `decodeBase62 ""` succeeds and returns 0 (the accumulator is
never touched), so `parseShortCode ""` succeeds and returns
`deobfuscateID 0` (which is the XOR mask, 1563070355) instead of
rejecting the empty string; in particular `""` and `"0"` are distinct
accepted inputs decoding to the same value. -/
theorem decode_empty_string :
    decodeBase62 "" = Except.ok 0 ∧
    parseShortCode "" = Except.ok (deobfuscateID 0) ∧
    parseShortCode "" = Except.ok 1563070355 ∧
    deobfuscateID 0 = xorMask ∧
    decodeBase62 "0" = Except.ok 0 ∧
    ("" : String) ≠ "0" := by
  exact ⟨rfl, rfl, rfl, by decide, rfl, by decide⟩

end UL
